import Mathlib

/-
Shallow embedding of the `wayes` router package (github.com/eliofery/wayes).

The package wraps Go's `net/http.ServeMux` (Go 1.22 pattern syntax).  The
embedding models:
  * `ctx.go`   : the per-request context (`ctx` struct and its methods);
  * `wayes.go` : the router (`wayes` struct: `New`, `handler`, the method
    registrars, `Group`, `Use`, `Combine`, `Mux`);
  * the slice of the external collaborators the code relies on
    (`http.ResponseWriter` recorder semantics, `http.Error`,
    `http.StripPrefix`, `ServeMux` registration/matching for the pattern
    shapes this package produces, and the outcome of
    `json.NewDecoder(body).Decode(target)`).

Go's mutation of the shared context / response writer is modelled by explicit
state passing; Go panics (from `ServeMux.Handle` on conflicting patterns)
are modelled by `Option` (`none` = panic); the `rt` pointer captured by the
registration closures is modelled by a router id into a `World`.
-/

/-- Go `error` values that appear in this package: the two sentinel errors of
`ctx.go` (`errEmptyBody`, `errInvalidBody`) and arbitrary other errors
(`errors.New(msg)`, validator errors, handler errors), identified by their
message. -/
inductive GoErr where
  | emptyBody
  | invalidBody
  | mk (msg : String)
deriving DecidableEq

/-- `err.Error()` : the textual message of an error.  The sentinel messages
are the ones from `ctx.go` (`errors.New("empty body")`,
`errors.New("invalid body")`). -/
def GoErr.message : GoErr → String
  | .emptyBody => "empty body"
  | .invalidBody => "invalid body"
  | .mk m => m

/-- JSON-representable values: the dynamic (`any`) payloads decoded from or
validated against a request body. -/
inductive Json where
  | null
  | jbool (b : Bool)
  | jnum (n : Int)
  | jstr (s : String)
  | jarr (elems : List Json)
  | jobj (fields : List (String × Json))

/-- Outcome of `json.NewDecoder(c.request.Body).Decode(data)` on this
request's body and the caller's target shape.  The JSON decoder is an
external collaborator (`encoding/json`); the embedding records its outcome:
`ok v` — the body decoded into the target, populating it with `v`;
`eofErr` — the body was empty, the decoder returned `io.EOF`
(`errors.Is(err, io.EOF)` holds);
`failErr msg` — any other decode failure (malformed JSON, type mismatch,
truncated body), for which `errors.Is(err, io.EOF)` does not hold. -/
inductive DecodeOutcome where
  | ok (v : Json)
  | eofErr
  | failErr (msg : String)

/-- An inbound `*http.Request`: method, URL path, inbound header set, and
the decode outcome of its body against the caller's target shape. -/
structure Request where
  method : String
  path : String
  headers : List (String × String)
  decodeResult : DecodeOutcome

/-- An `http.ResponseWriter` with recorder semantics (as in
`httptest.ResponseRecorder` / the real server): a mutable outbound header
set, a status code (200 until written), a flag recording whether the status
line was already written, and the accumulated body. -/
structure Recorder where
  headers : List (String × String)
  code : Nat
  wroteHeader : Bool
  body : String

/-- A fresh response recorder (`httptest.NewRecorder()`). -/
def Recorder.new : Recorder :=
  { headers := [], code := 200, wroteHeader := false, body := "" }

/-- `w.Header().Set(key, value)` : replace the value for the key. -/
def Recorder.setHeader (w : Recorder) (key value : String) : Recorder :=
  { w with headers := (key, value) :: w.headers.filter (fun p => ¬ (p.1 = key)) }

/-- `w.Header().Del(key)`. -/
def Recorder.delHeader (w : Recorder) (key : String) : Recorder :=
  { w with headers := w.headers.filter (fun p => ¬ (p.1 = key)) }

/-- `w.Header().Get(key)` : the value for the key, `""` when absent. -/
def Recorder.getHeader (w : Recorder) (key : String) : String :=
  match w.headers.find? (fun p => decide (p.1 = key)) with
  | some p => p.2
  | none => ""

/-- `w.WriteHeader(code)` : writes the status line once; a second call is
superfluous and ignored. -/
def Recorder.writeHeader (w : Recorder) (code : Nat) : Recorder :=
  if w.wroteHeader then w else { w with code := code, wroteHeader := true }

/-- `w.Write(b)` : an implicit `WriteHeader(200)` if the status line was not
written yet, then append to the body. -/
def Recorder.write (w : Recorder) (b : String) : Recorder :=
  let w := w.writeHeader 200
  { w with body := w.body ++ b }

/-- `http.Error(w, msg, code)` from `net/http`: deletes Content-Length, sets
Content-Type and X-Content-Type-Options, writes the status line with `code`,
then writes `msg` followed by a newline (`fmt.Fprintln`). -/
def httpError (w : Recorder) (msg : String) (code : Nat) : Recorder :=
  let w := w.delHeader "Content-Length"
  let w := w.setHeader "Content-Type" "text/plain; charset=utf-8"
  let w := w.setHeader "X-Content-Type-Options" "nosniff"
  let w := w.writeHeader code
  w.write (msg ++ "\n")

/-- `http.NotFound(w, r)` : `http.Error(w, "404 page not found", 404)`. -/
def notFound (w : Recorder) : Recorder :=
  httpError w "404 page not found" 404

/-- The external structural validator collaborator (`Validater.Struct`):
examines the decoded value and returns an error or nil. -/
abbrev GoValidator := Json → Option GoErr

/-- The `ctx` struct of `ctx.go`: validator reference, response writer,
request reference, and the stored status code. -/
structure CtxState where
  validator : Option GoValidator
  response : Recorder
  request : Request
  status : Nat

/-- `NewCtx(validator, w, r)` : status starts at `http.StatusOK` (200). -/
def NewCtx (validator : Option GoValidator) (w : Recorder) (r : Request) : CtxState :=
  { validator := validator, response := w, request := r, status := 200 }

/-- `c.Status(code)` : store the status code (chainable; the status line is
not written yet). -/
def ctxStatus (c : CtxState) (code : Nat) : CtxState :=
  { c with status := code }

/-- `c.Set(key, value)` : set an outbound header. -/
def ctxSet (c : CtxState) (key value : String) : CtxState :=
  { c with response := c.response.setHeader key value }

/-- `c.Get(key, defaultValue...)` : read a header from the outbound response
header set (`c.response.Header().Get(key)`, not the inbound request
headers); when the value is empty, return the first default if one was
supplied, else `""`.  Go checks `len(header) == 0`, i.e. `header = ""`. -/
def ctxGet (c : CtxState) (key : String) (defaultValue : List String) : String :=
  let header := c.response.getHeader key
  if header = "" then
    if defaultValue.length = 0 then "" else defaultValue.headD ""
  else header

/-- `c.ContentType(value)` : `c.Set("Content-Type", value)`. -/
def ctxContentType (c : CtxState) (value : String) : CtxState :=
  ctxSet c "Content-Type" value

/-- `c.Next()` : returns nil; a pure no-op signal to continue the chain. -/
def ctxNext (c : CtxState) : CtxState × Option GoErr :=
  (c, none)

/-- `c.Write(message)` : set Content-Type to text/plain, write the stored
status as the status line, and write the message as the body — unless the
stored status is `http.StatusNoContent` (204), in which case the body write
is skipped.  The recorder's `Write` never fails, so no error is returned. -/
def ctxWrite (c : CtxState) (message : String) : CtxState × Option GoErr :=
  let c := ctxContentType c "text/plain; charset=utf-8"
  let c := { c with response := c.response.writeHeader c.status }
  if c.status = 204 then (c, none)
  else ({ c with response := c.response.write message }, none)

/-- `c.SendError(message)` : write the stored status as the status line,
then return the given error unchanged. -/
def ctxSendError (c : CtxState) (message : GoErr) : CtxState × GoErr :=
  ({ c with response := c.response.writeHeader c.status }, message)

/-- Result of `c.Decode(data)` / `c.Validate(data)`: the context after the
call, the content of the caller-supplied target when the decoder populated
it, and the returned error. -/
structure BodyResult where
  ctx : CtxState
  target : Option Json
  err : Option GoErr

/-- `c.Decode(data)` from `ctx.go`: on decoder failure, set status 400;
then, if the method is POST, PUT, PATCH or DELETE and the failure is
`io.EOF`, return `errEmptyBody`, otherwise return `errInvalidBody`.
On success, return nil with the target populated. -/
def ctxDecode (c : CtxState) : BodyResult :=
  match c.request.decodeResult with
  | .ok v => { ctx := c, target := some v, err := none }
  | .eofErr =>
    let c := ctxStatus c 400
    if c.request.method = "POST" ∨ c.request.method = "PUT" ∨
        c.request.method = "PATCH" ∨ c.request.method = "DELETE" then
      { ctx := c, target := none, err := some .emptyBody }
    else
      { ctx := c, target := none, err := some .invalidBody }
  | .failErr _ =>
    { ctx := ctxStatus c 400, target := none, err := some .invalidBody }

/-- `c.Validate(data)` from `ctx.go`: `Decode` first, propagating its error
unchanged; on decode success, if a validator is configured, run it on the
populated target; on rejection set status 400 and return the validator's
error untouched; with no validator (nil), decode success suffices. -/
def ctxValidate (c : CtxState) : BodyResult :=
  let r := ctxDecode c
  match r.err with
  | some e => { ctx := r.ctx, target := r.target, err := some e }
  | none =>
    match r.ctx.validator, r.target with
    | some f, some v =>
      match f v with
      | some e => { ctx := ctxStatus r.ctx 400, target := r.target, err := some e }
      | none => r
    | _, _ => r

/-- `Handler func(ctx Ctx) error`, with Go's in-place mutation of the shared
context/response modelled by state passing. -/
abbrev Handler := CtxState → CtxState × Option GoErr

/-- A Go 1.22 `ServeMux` pattern of the shapes this package registers:
`exact m p` is `"METHOD /path"` (no trailing slash: matches exactly that
method and path); `subtree pre` is `"pre/"` (matches every path beginning
with `pre ++ "/"`; `pre = ""` is the catch-all pattern `"/"`). -/
inductive Pat where
  | exact (method : String) (path : String)
  | subtree (pre : String)
deriving DecidableEq

/-- Does the pattern match a request with this method and path? -/
def Pat.matchReq : Pat → String → String → Bool
  | .exact m p, method, path => decide (m = method) && decide (p = path)
  | .subtree pre, _, path => (pre.data ++ [ '/' ]).isPrefixOf path.data

/-- Precedence rank: `ServeMux` serves the most specific matching pattern.
Among patterns that match the same request an exact pattern outranks every
subtree pattern and a longer subtree prefix outranks a shorter one;
co-matching ties are impossible because registration rejects duplicates. -/
def Pat.spec : Pat → Nat
  | .exact _ p => p.data.length + 2
  | .subtree pre => pre.data.length + 1

/-- An entry of a router's pattern table: `route owner h` is the closure
`func(w, r) { rt.handler(handler, w, r) }` registered by the method
registrars, capturing the `rt` pointer (`owner`) and the terminal handler;
`strip pre target` is `http.StripPrefix(pre, group.Mux())` registered by
`Group`; `mount target` is the other router's mux registered by `Combine`. -/
inductive MuxEntry where
  | route (owner : Nat) (h : Handler)
  | strip (pre : String) (target : Nat)
  | mount (target : Nat)

/-- `mux.Handle(pattern, entry)` : `ServeMux.Handle` panics (`none`) when
the pattern conflicts with an already-registered one; among the pattern
shapes this package produces, a conflict is exactly a duplicate pattern.
Otherwise the entry is appended to the table. -/
def muxHandle (mux : List (Pat × MuxEntry)) (p : Pat) (e : MuxEntry) :
    Option (List (Pat × MuxEntry)) :=
  if mux.any (fun q => decide (q.1 = p)) then none else some (mux ++ [(p, e)])

/-- The most specific entry of the table matching the request, if any
(ties cannot occur: co-matching patterns have distinct ranks). -/
def findBest (mux : List (Pat × MuxEntry)) (method path : String) :
    Option (Pat × MuxEntry) :=
  mux.foldl
    (fun best pe =>
      if pe.1.matchReq method path then
        match best with
        | none => some pe
        | some b => if b.1.spec < pe.1.spec then some pe else best
      else best)
    none

/-- The `wayes` struct of `wayes.go`: validator reference, the owned
`http.ServeMux` pattern table, and the middleware slice. -/
structure RouterData where
  validator : Option GoValidator
  middlewares : List Handler
  mux : List (Pat × MuxEntry)

/-- The heap of live routers; a router id (`Nat`) models the `*wayes`
pointer (and, one-to-one, its `*http.ServeMux`, created once in `New` and
only handed out via `Mux()`). -/
structure World where
  routers : List RouterData

/-- The empty heap. -/
def World.empty : World := { routers := [] }

/-- Dereference a router id (ids handed out by `newRouter` are in range;
out-of-range ids read an inert default). -/
def World.routerD (w : World) (rid : Nat) : RouterData :=
  w.routers.getD rid { validator := none, middlewares := [], mux := [] }

/-- Replace a router's pattern table. -/
def World.setMux (w : World) (rid : Nat) (mux : List (Pat × MuxEntry)) : World :=
  { routers := w.routers.set rid { w.routerD rid with mux := mux } }

/-- `New(validator...)` : allocate a fresh router with an empty mux and an
empty middleware slice; returns the heap and the new router's id. -/
def World.newRouter (w : World) (validator : Option GoValidator) : World × Nat :=
  ({ routers := w.routers ++ [{ validator := validator, middlewares := [], mux := [] }] },
   w.routers.length)

/-- `rt.Use(handlers...)` : append the handlers, in call order, to the
router's middleware slice. -/
def World.use (w : World) (rid : Nat) (handlers : List Handler) : World :=
  { routers := w.routers.set rid
      { w.routerD rid with middlewares := (w.routerD rid).middlewares ++ handlers } }

/-- The method registrars (`Get`, `Post`, `Head`, `Options`, `Put`, `Patch`,
`Delete`): `rt.mux.HandleFunc("METHOD path", func(w, r) { rt.handler(handler, w, r) })`.
`none` models the `Handle` panic on a conflicting pattern. -/
def World.route (w : World) (rid : Nat) (method path : String) (h : Handler) :
    Option World :=
  match muxHandle (w.routerD rid).mux (Pat.exact method path) (MuxEntry.route rid h) with
  | none => none
  | some mux => some (w.setMux rid mux)

/-- `rt.Group(path)` : `group := New(rt.validator)`, then
`group.Use(rt.middlewares...)` (an independently owned snapshot copy), then
`rt.mux.Handle(path ++ "/", http.StripPrefix(path, group.Mux()))`; returns
the group's id. -/
def World.group (w : World) (rid : Nat) (path : String) : Option (World × Nat) :=
  let rd := w.routerD rid
  let wg := w.newRouter rd.validator
  let w2 := wg.1.use wg.2 rd.middlewares
  match muxHandle (w2.routerD rid).mux (Pat.subtree path) (MuxEntry.strip path wg.2) with
  | none => none
  | some mux => some (w2.setMux rid mux, wg.2)

/-- The loop body of `Combine`: `rt.Mux().Handle("/", router)` for each
given mux, in call order; a conflict panics (`none`). -/
def combineAux : World → Nat → List Nat → Option World
  | w, _, [] => some w
  | w, rid, t :: ts =>
    match muxHandle (w.routerD rid).mux (Pat.subtree "") (MuxEntry.mount t) with
    | none => none
    | some mux => combineAux (w.setMux rid mux) rid ts

/-- `rt.Combine(routers...)` : mount each given mux under the pattern `"/"`
on the receiver's mux, in call order, then `return rt.Mux()` — the second
component of the result is the id of the returned (receiver's) mux. -/
def World.combine (w : World) (rid : Nat) (targets : List Nat) :
    Option (World × Nat) :=
  match combineAux w rid targets with
  | none => none
  | some w2 => some (w2, rid)

/-- `runChain` : the middleware loop of `(rt *wayes).handler` — run each
middleware in order on the shared context, stopping at the first error. -/
def runChain : List Handler → CtxState → CtxState × Option GoErr
  | [], c => (c, none)
  | m :: ms, c =>
    match m c with
    | (c2, none) => runChain ms c2
    | (c2, some e) => (c2, some e)

/-- `http.Error(context.Response(), err.Error(), http.StatusInternalServerError)` :
how the dispatch loop converts a returned error into a response. -/
def writeChainError (c : CtxState) (e : GoErr) : CtxState :=
  { c with response := httpError c.response e.message 500 }

/-- The tail of `(rt *wayes).handler` : run the terminal handler; convert a
returned error via `http.Error(..., 500)`. -/
def finish (h : Handler) (c : CtxState) : CtxState :=
  match h c with
  | (c2, none) => c2
  | (c2, some e) => writeChainError c2 e

/-- `(rt *wayes).handler(handler, w, r)` for a router whose middleware
slice is `mws` : run the middleware chain; on the first error write it via
`http.Error(..., 500)` and return; otherwise run the terminal handler. -/
def wayesHandler (mws : List Handler) (h : Handler) (c : CtxState) : CtxState :=
  match runChain mws c with
  | (c2, none) => finish h c2
  | (c2, some e) => writeChainError c2 e

/-- `mux.ServeHTTP(w, r)` on router `rid`'s mux, fuelled (`none` = the
recursion between mutually mounted muxes diverges, as it would in Go).  A
matched route entry runs `rt.handler` with the owner's middleware slice and
validator as read at serve time; a strip entry is `http.StripPrefix` (serve
the target on the path minus the prefix, or 404 when the prefix is absent
or empty); a mount entry delegates to the target mux; no match is a 404. -/
def World.serve : Nat → World → Nat → Request → Recorder → Option Recorder
  | 0, _, _, _, _ => none
  | fuel + 1, w, rid, req, rec =>
    match findBest (w.routerD rid).mux req.method req.path with
    | none => some (notFound rec)
    | some (_, MuxEntry.route owner h) =>
      some ((wayesHandler (w.routerD owner).middlewares h
        (NewCtx (w.routerD owner).validator rec req)).response)
    | some (_, MuxEntry.strip pre target) =>
      if pre ≠ "" ∧ pre.data.isPrefixOf req.path.data then
        World.serve fuel w target
          { req with path := ⟨req.path.data.drop pre.data.length⟩ } rec
      else some (notFound rec)
    | some (_, MuxEntry.mount target) => World.serve fuel w target req rec

/-! Concrete fixtures used by the witness and counterexample theorems
below: handlers, middleware, requests and small router heaps. -/

def c4req : Request :=
  { method := "POST", path := "/t", headers := [], decodeResult := DecodeOutcome.eofErr }

def c4getReq : Request :=
  { method := "GET", path := "/t", headers := [], decodeResult := DecodeOutcome.eofErr }

def c7req : Request :=
  { method := "POST", path := "/t", headers := [], decodeResult := DecodeOutcome.ok Json.null }

def c7val : GoValidator := fun _ => some (GoErr.mk "test error")

def c8req : Request :=
  { method := "GET", path := "/t", headers := [], decodeResult := DecodeOutcome.eofErr }

def c3mwA : Handler := fun c => ctxNext (ctxSet c "A" "1")

def c3mwFail : Handler := fun c => (c, some (GoErr.mk "access denied"))

def c3mwNever : Handler := fun c => (c, some (GoErr.mk "never runs"))

def c3handler : Handler := fun c => ctxWrite c "Test get response"

def c3ctx : CtxState := NewCtx none Recorder.new c8req

def c1mwStatus : Handler := fun c => (ctxStatus c 403, some (GoErr.mk "access denied"))

def c1mwSend : Handler := fun c =>
  ((ctxSendError (ctxStatus c 403) (GoErr.mk "middleware error")).1,
   some (ctxSendError (ctxStatus c 403) (GoErr.mk "middleware error")).2)

def c5mwA : Handler := fun c => ctxNext c

def c5mwB : Handler := fun c => ctxNext (ctxSet c "B" "1")

def c5base : World := (World.empty.newRouter none).1.use 0 [c5mwA]

def c5grouped : World × Nat := (World.group c5base 0 "/users").getD (World.empty, 0)

def c6base : World := (World.empty.newRouter none).1.use 0 [c5mwA, c5mwB]

def c6grouped : World × Nat := (World.group c6base 0 "/g").getD (World.empty, 0)

def c6mwC : Handler := fun c => ctxNext (ctxSet c "C" "1")

def c2three : World :=
  (((World.empty.newRouter none).1.newRouter none).1.newRouter none).1

def c2routeH : Handler := fun c => ctxWrite c "response users version 2"

def c2recvBase : World := ((World.empty.newRouter none).1.newRouter none).1

def c2reg : World := (World.route c2recvBase 1 "GET" "/users" c2routeH).getD World.empty

def c2comb : World := ((World.combine c2reg 0 [1]).getD (World.empty, 0)).1

def c2req : Request :=
  { method := "GET", path := "/users", headers := [], decodeResult := DecodeOutcome.eofErr }

/-! Helper lemmas about list surgery on the router heap and about the
dispatch chain. -/

theorem listGetD_set_ne {α : Type} (l : List α) (i j : Nat) (a d : α)
    (hij : i ≠ j) : (l.set i a).getD j d = l.getD j d := by
  induction l generalizing i j with
  | nil => simp [List.set]
  | cons x xs ih =>
    cases i with
    | zero =>
      cases j with
      | zero => exact absurd rfl hij
      | succ j => simp [List.set, List.getD]
    | succ i =>
      cases j with
      | zero => simp [List.set, List.getD]
      | succ j =>
        simp only [List.set, List.getD_cons_succ]
        exact ih i j (fun h => hij (congrArg Nat.succ h))

theorem listGetD_set_self {α : Type} (l : List α) (i : Nat) (a d : α)
    (hi : i < l.length) : (l.set i a).getD i d = a := by
  induction l generalizing i with
  | nil => simp at hi
  | cons x xs ih =>
    cases i with
    | zero => simp [List.set, List.getD]
    | succ i =>
      simp only [List.set, List.getD_cons_succ]
      exact ih i (Nat.lt_of_succ_lt_succ hi)

theorem listGetD_append_lt {α : Type} (l l2 : List α) (i : Nat) (d : α)
    (hi : i < l.length) : (l ++ l2).getD i d = l.getD i d := by
  induction l generalizing i with
  | nil => simp at hi
  | cons x xs ih =>
    cases i with
    | zero => simp [List.getD]
    | succ i =>
      simp only [List.cons_append, List.getD_cons_succ]
      exact ih i (Nat.lt_of_succ_lt_succ hi)

theorem listGetD_append_length {α : Type} (l : List α) (a d : α) :
    (l ++ [a]).getD l.length d = a := by
  induction l with
  | nil => simp [List.getD]
  | cons x xs ih => simp [List.getD]

theorem listSet_append_length {α : Type} (l : List α) (a b : α) :
    (l ++ [a]).set l.length b = l ++ [b] := by
  induction l with
  | nil => simp [List.set]
  | cons x xs ih => simp [List.set, ih]

/-- Running a concatenated middleware chain: the first part runs first; only
if it finishes without an error does the second part run, on the state the
first part produced. -/
theorem runChain_append (l1 l2 : List Handler) (c : CtxState) :
    runChain (l1 ++ l2) c =
      match runChain l1 c with
      | (c2, none) => runChain l2 c2
      | (c2, some e) => (c2, some e) := by
  induction l1 generalizing c with
  | nil => simp [runChain]
  | cons m ms ih =>
    simp only [List.cons_append, runChain]
    cases hm : m c with
    | mk c2 oe =>
      cases oe with
      | none => exact ih c2
      | some e => rfl

/-- `findBest` skips a run of non-matching entries. -/
theorem findBest_all_no_match (mux : List (Pat × MuxEntry)) (method path : String)
    (hn : ∀ pe ∈ mux, pe.1.matchReq method path = false) :
    (mux.foldl
      (fun best pe =>
        if pe.1.matchReq method path then
          match best with
          | none => some pe
          | some b => if b.1.spec < pe.1.spec then some pe else best
        else best)
      none) = none := by
  induction mux with
  | nil => rfl
  | cons pe rest ih =>
    have hpe : pe.1.matchReq method path = false := hn pe (by simp)
    simp only [List.foldl_cons, hpe, Bool.false_eq_true, if_false]
    exact ih (fun q hq => hn q (by simp [hq]))

/-- On any decode failure the context comes back with status 400 and is
otherwise unchanged. -/
theorem ctxDecode_err_ctx (c : CtxState) (e : GoErr)
    (h : (ctxDecode c).err = some e) : (ctxDecode c).ctx = ctxStatus c 400 := by
  cases hd : c.request.decodeResult with
  | ok v => simp [ctxDecode, hd] at h
  | eofErr =>
    by_cases hm : c.request.method = "POST" ∨ c.request.method = "PUT" ∨
        c.request.method = "PATCH" ∨ c.request.method = "DELETE" <;>
      simp [ctxDecode, hd, hm, ctxStatus]
  | failErr m => simp [ctxDecode, hd]

/-- Decode success leaves the context untouched and populates the target. -/
theorem ctxDecode_ok (c : CtxState) (v : Json)
    (h : c.request.decodeResult = DecodeOutcome.ok v) :
    ctxDecode c = { ctx := c, target := some v, err := none } := by
  simp [ctxDecode, h]

/-- `Decode` never touches the validator reference. -/
theorem ctxDecode_validator (c : CtxState) :
    (ctxDecode c).ctx.validator = c.validator := by
  cases hd : c.request.decodeResult with
  | ok v => simp [ctxDecode, hd]
  | eofErr =>
    by_cases hm : c.request.method = "POST" ∨ c.request.method = "PUT" ∨
        c.request.method = "PATCH" ∨ c.request.method = "DELETE" <;>
      simp [ctxDecode, hd, hm, ctxStatus]
  | failErr m => simp [ctxDecode, hd, ctxStatus]

/-- Claim C4: `Decode` returns the `EmptyBody` error exactly when the
decoder failed with an empty body (`io.EOF`) and the method is POST, PUT,
PATCH or DELETE; every other decode failure (malformed JSON, type mismatch,
or an empty body with any other method, e.g. GET/HEAD/OPTIONS) returns the
`InvalidBody` error; any decode failure also sets the context's status to
400 (leaving the rest unchanged); decode success returns no error. -/
theorem decode_error_classification (c : CtxState) :
    ((ctxDecode c).err = some GoErr.emptyBody ↔
      (c.request.decodeResult = DecodeOutcome.eofErr ∧
        (c.request.method = "POST" ∨ c.request.method = "PUT" ∨
          c.request.method = "PATCH" ∨ c.request.method = "DELETE"))) ∧
    ((ctxDecode c).err = some GoErr.invalidBody ↔
      ((c.request.decodeResult = DecodeOutcome.eofErr ∧
          ¬(c.request.method = "POST" ∨ c.request.method = "PUT" ∨
            c.request.method = "PATCH" ∨ c.request.method = "DELETE")) ∨
        (∃ m, c.request.decodeResult = DecodeOutcome.failErr m))) ∧
    (∀ e, (ctxDecode c).err = some e → (ctxDecode c).ctx = ctxStatus c 400) ∧
    (∀ v, c.request.decodeResult = DecodeOutcome.ok v → (ctxDecode c).err = none) := by
  refine ⟨?_, ?_, fun e he => ctxDecode_err_ctx c e he, fun v hv => ?_⟩
  · cases hd : c.request.decodeResult with
    | ok v => simp [ctxDecode, hd]
    | eofErr =>
      by_cases hm : c.request.method = "POST" ∨ c.request.method = "PUT" ∨
          c.request.method = "PATCH" ∨ c.request.method = "DELETE" <;>
        simp [ctxDecode, hd, hm, ctxStatus]
    | failErr m => simp [ctxDecode, hd]
  · cases hd : c.request.decodeResult with
    | ok v => simp [ctxDecode, hd]
    | eofErr =>
      by_cases hm : c.request.method = "POST" ∨ c.request.method = "PUT" ∨
          c.request.method = "PATCH" ∨ c.request.method = "DELETE" <;>
        simp [ctxDecode, hd, hm, ctxStatus]
    | failErr m => simp [ctxDecode, hd]
  · simp [ctxDecode, hv]

/-- Witness for C4: an empty POST body yields `EmptyBody` with status 400;
the same empty body on GET yields `InvalidBody`. -/
theorem decode_error_classification_witness :
    (ctxDecode (NewCtx none Recorder.new c4req)).err = some GoErr.emptyBody ∧
    (ctxDecode (NewCtx none Recorder.new c4req)).ctx.status = 400 ∧
    (ctxDecode (NewCtx none Recorder.new c4getReq)).err = some GoErr.invalidBody := by
  refine ⟨(decode_error_classification (NewCtx none Recorder.new c4req)).1.mpr
      ⟨rfl, Or.inl rfl⟩, ?_, ?_⟩
  · rw [(decode_error_classification (NewCtx none Recorder.new c4req)).2.2.1
      GoErr.emptyBody ((decode_error_classification (NewCtx none Recorder.new c4req)).1.mpr
        ⟨rfl, Or.inl rfl⟩)]
    rfl
  · exact (decode_error_classification (NewCtx none Recorder.new c4getReq)).2.1.mpr
      (Or.inl ⟨rfl, by simp [c4getReq, NewCtx]⟩)

/-- Claim C7: `Validate` runs `Decode` first and propagates a decode failure
unchanged (the context already carries status 400 from `Decode`); on decode
success with a configured validator that rejects the populated target it
sets status 400 and returns the validator's error untouched; with no
validator configured (nil) it succeeds whenever `Decode` does. -/
theorem validate_pipeline (c : CtxState) :
    (∀ e, (ctxDecode c).err = some e →
      ctxValidate c =
        { ctx := (ctxDecode c).ctx, target := (ctxDecode c).target, err := some e } ∧
      (ctxValidate c).ctx.status = 400) ∧
    (∀ v f e, c.request.decodeResult = DecodeOutcome.ok v → c.validator = some f →
      f v = some e →
      ctxValidate c = { ctx := ctxStatus c 400, target := some v, err := some e }) ∧
    (c.validator = none → (ctxDecode c).err = none → (ctxValidate c).err = none) := by
  refine ⟨fun e he => ?_, fun v f e hd hf hfe => ?_, fun hv he => ?_⟩
  · have hctx := ctxDecode_err_ctx c e he
    constructor
    · simp [ctxValidate, he]
    · simp [ctxValidate, he, hctx, ctxStatus]
  · have hdec := ctxDecode_ok c v hd
    simp [ctxValidate, hdec, hf, hfe]
  · have h2 : (ctxDecode c).ctx.validator = none := by rw [ctxDecode_validator c, hv]
    simp [ctxValidate, he, h2]

/-- Witness for C7: a configured validator that rejects gives its error back
untouched with status 400; a decode failure propagates the decode error. -/
theorem validate_pipeline_witness :
    ctxValidate (NewCtx (some c7val) Recorder.new c7req) =
      { ctx := ctxStatus (NewCtx (some c7val) Recorder.new c7req) 400,
        target := some Json.null, err := some (GoErr.mk "test error") } ∧
    (ctxValidate (NewCtx none Recorder.new c4req)).err = some GoErr.emptyBody := by
  constructor
  · exact (validate_pipeline (NewCtx (some c7val) Recorder.new c7req)).2.1
      Json.null c7val (GoErr.mk "test error") rfl rfl rfl
  · rw [((validate_pipeline (NewCtx none Recorder.new c4req)).1
      GoErr.emptyBody (by simp [ctxDecode, c4req, NewCtx, ctxStatus])).1]

/-- Claim C10: when `Validate` returns a validator-rejection error, the
caller-supplied target has already been populated with the decoded body:
decoding completed before validation ran, so on validation failure the
target holds the decoded value. -/
theorem validate_populates_target (c : CtxState) (v : Json) (f : GoValidator) (e : GoErr)
    (hf : c.validator = some f) (hd : c.request.decodeResult = DecodeOutcome.ok v)
    (he : f v = some e) :
    (ctxValidate c).err = some e ∧ (ctxValidate c).target = some v := by
  have hdec := ctxDecode_ok c v hd
  constructor <;> simp [ctxValidate, hdec, hf, he]

/-- Witness for C10: the rejected target carries the decoded value. -/
theorem validate_populates_target_witness :
    (ctxValidate (NewCtx (some c7val) Recorder.new c7req)).err =
      some (GoErr.mk "test error") ∧
    (ctxValidate (NewCtx (some c7val) Recorder.new c7req)).target = some Json.null :=
  validate_populates_target (NewCtx (some c7val) Recorder.new c7req)
    Json.null c7val (GoErr.mk "test error") rfl rfl rfl

/-- Claim C8: for a context whose response has not been written yet, `Write`
sets the outbound Content-Type header to `text/plain; charset=utf-8`,
writes the stored status code as the response status line, never fails, and
writes the message as the body — except that with stored status 204 the
body is left entirely empty even for a non-empty message. -/
theorem write_text_semantics (c : CtxState) (message : String)
    (hw : c.response.wroteHeader = false) (hb : c.response.body = "") :
    (ctxWrite c message).2 = none ∧
    (ctxWrite c message).1.response.getHeader "Content-Type" =
      "text/plain; charset=utf-8" ∧
    (ctxWrite c message).1.response.code = c.status ∧
    (ctxWrite c message).1.response.wroteHeader = true ∧
    (ctxWrite c message).1.response.body = (if c.status = 204 then "" else message) := by
  by_cases h204 : c.status = 204 <;>
    simp [ctxWrite, ctxContentType, ctxSet, Recorder.setHeader, Recorder.writeHeader,
      Recorder.write, Recorder.getHeader, hw, hb, h204, List.find?]

/-- Witness for C8: `Status(204)` then `Write("Test message")` produces
status 204 with an empty body; the same write at the default status 200
produces the message as the body. -/
theorem write_text_semantics_witness :
    (ctxWrite (ctxStatus (NewCtx none Recorder.new c8req) 204) "Test message").1.response.code
        = 204 ∧
    (ctxWrite (ctxStatus (NewCtx none Recorder.new c8req) 204) "Test message").1.response.body
        = "" ∧
    (ctxWrite (NewCtx none Recorder.new c8req) "Test message").1.response.body
        = "Test message" := by
  refine ⟨?_, ?_, ?_⟩
  · exact (write_text_semantics (ctxStatus (NewCtx none Recorder.new c8req) 204)
      "Test message" rfl rfl).2.2.1
  · rw [(write_text_semantics (ctxStatus (NewCtx none Recorder.new c8req) 204)
      "Test message" rfl rfl).2.2.2.2]
    rfl
  · rw [(write_text_semantics (NewCtx none Recorder.new c8req)
      "Test message" rfl rfl).2.2.2.2]
    rfl

/-- Claim C9: `Get` reads from the outbound response header set, never from
the inbound request headers: after `Set(key, value)` with a non-empty value,
`Get(key)` returns that value; for a key absent from the outbound headers,
`Get` returns the supplied default when one is given and `""` otherwise; and
the result never depends on the inbound request. -/
theorem get_reads_outbound (c : CtxState) (k v d : String) (ds : List String)
    (hv : v ≠ "") :
    ctxGet (ctxSet c k v) k ds = v ∧
    (c.response.headers.find? (fun p => decide (p.1 = k)) = none →
      ctxGet c k [d] = d ∧ ctxGet c k [] = "") ∧
    (∀ r : Request, ctxGet { c with request := r } k ds = ctxGet c k ds) := by
  refine ⟨?_, fun habs => ?_, fun r => rfl⟩
  · simp [ctxGet, ctxSet, Recorder.setHeader, Recorder.getHeader, List.find?, hv]
  · constructor <;> simp [ctxGet, Recorder.getHeader, habs]

/-- Witness for C9: `Set("test", "123")` then `Get("test")` yields `"123"`;
an unset key yields the default `"123"` when given and `""` otherwise. -/
theorem get_reads_outbound_witness :
    ctxGet (ctxSet (NewCtx none Recorder.new c8req) "test" "123") "test" [] = "123" ∧
    ctxGet (NewCtx none Recorder.new c8req) "undefined" ["123"] = "123" ∧
    ctxGet (NewCtx none Recorder.new c8req) "undefined" [] = "" := by
  refine ⟨?_, ?_, ?_⟩
  · exact (get_reads_outbound (NewCtx none Recorder.new c8req) "test" "123" "123" []
      (by decide)).1
  · exact ((get_reads_outbound (NewCtx none Recorder.new c8req) "undefined" "123" "123" []
      (by decide)).2.1 rfl).1
  · exact ((get_reads_outbound (NewCtx none Recorder.new c8req) "undefined" "123" "123" []
      (by decide)).2.1 rfl).2

/-- Claim C3: middleware run in registration order — a chain prefix runs
first and only when it finishes cleanly does the rest run, on the state it
produced; if a middleware fails, the later middleware and the terminal
handler never execute (the dispatch result does not depend on them); and
the terminal handler executes exactly when the whole middleware list has
succeeded, on the state it produced. -/
theorem middleware_chain_order (l1 l2 l2' : List Handler) (m h h' : Handler)
    (c c1 c2 : CtxState) (e : GoErr)
    (h1 : runChain l1 c = (c1, none)) :
    runChain (l1 ++ l2) c = runChain l2 c1 ∧
    (m c1 = (c2, some e) →
      wayesHandler (l1 ++ m :: l2) h c = wayesHandler (l1 ++ m :: l2') h' c) ∧
    wayesHandler l1 h c = finish h c1 := by
  refine ⟨?_, fun hm => ?_, ?_⟩
  · rw [runChain_append, h1]
  · have key : ∀ l3 : List Handler, runChain (l1 ++ m :: l3) c = (c2, some e) := by
      intro l3
      rw [runChain_append, h1]
      simp [runChain, hm]
    unfold wayesHandler
    rw [key l2, key l2']
  · unfold wayesHandler
    rw [h1]

/-- Witness for C3: with a first middleware that sets a header and a second
that fails, the dispatch outcome is independent of any later middleware and
of the terminal handler; with the successful prefix alone, the terminal
handler runs on the state the prefix produced. -/
theorem middleware_chain_order_witness :
    wayesHandler [c3mwA, c3mwFail, c3mwNever] c3handler c3ctx =
      wayesHandler [c3mwA, c3mwFail] c3mwNever c3ctx ∧
    wayesHandler [c3mwA] c3handler c3ctx = finish c3handler (ctxSet c3ctx "A" "1") := by
  constructor
  · exact (middleware_chain_order [c3mwA] [c3mwNever] [] c3mwFail c3handler c3mwNever
      c3ctx (ctxSet c3ctx "A" "1") (ctxSet c3ctx "A" "1") (GoErr.mk "access denied")
      rfl).2.1 rfl
  · exact (middleware_chain_order [c3mwA] [] [] c3mwFail c3handler c3handler
      c3ctx (ctxSet c3ctx "A" "1") (ctxSet c3ctx "A" "1") (GoErr.mk "access denied")
      rfl).2.2

/-- Counterexample to claim C1 as stated: a middleware stores status 403 on
the context (without writing the header) and returns an error; the claim
says the dispatch loop writes the context's currently-set status (403) as
the status line, but the dispatch loop calls
`http.Error(..., http.StatusInternalServerError)` unconditionally, so the
written status line is 500, not the context's current status 403. -/
theorem dispatch_error_status_counterexample :
    (wayesHandler [c1mwStatus] c3handler c3ctx).status = 403 ∧
    (wayesHandler [c1mwStatus] c3handler c3ctx).response.code = 500 := by
  constructor <;> rfl

/-- Claim C1, amended: when a middleware (or the terminal handler) returns
an error, the dispatch loop writes the response via
`http.Error(w, err.Error(), 500)` and ends the dispatch — the result does
not depend on the remaining middleware or the terminal handler.  The status
line of that response is 500 unless the handler itself had already written
the response header (e.g. via `SendError`) before returning, in which case
the previously written status stands; the context's stored status field by
itself does not affect the status line.  The error's textual message (plus
a trailing newline) is appended to the body. -/
theorem dispatch_error_write_amended (l1 l2 : List Handler) (m h : Handler)
    (c c1 c2 : CtxState) (e : GoErr)
    (h1 : runChain l1 c = (c1, none)) (h2 : m c1 = (c2, some e)) :
    wayesHandler (l1 ++ m :: l2) h c = writeChainError c2 e ∧
    (∀ (mws : List Handler) (ch cerr : CtxState) (eh : GoErr),
      runChain mws c = (ch, none) → h ch = (cerr, some eh) →
      wayesHandler mws h c = writeChainError cerr eh) ∧
    (∀ (c' : CtxState) (e' : GoErr),
      (writeChainError c' e').response.code =
        (if c'.response.wroteHeader then c'.response.code else 500) ∧
      (writeChainError c' e').response.body =
        c'.response.body ++ (e'.message ++ "\n") ∧
      (writeChainError c' e').status = c'.status) := by
  refine ⟨?_, fun mws ch cerr eh hch hh => ?_, fun c' e' => ?_⟩
  · unfold wayesHandler
    rw [runChain_append, h1]
    simp [runChain, h2]
  · unfold wayesHandler
    rw [hch]
    show finish h ch = writeChainError cerr eh
    unfold finish
    rw [hh]
  · by_cases hw : c'.response.wroteHeader <;>
      simp [writeChainError, httpError, Recorder.delHeader, Recorder.setHeader,
        Recorder.writeHeader, Recorder.write, hw]

/-- Witness for the amended C1, matching the repository's middleware-error
test: a middleware that does `ctx.Status(403).SendError(err)` produces a
response with status line 403 whose body carries the error text. -/
theorem dispatch_error_write_amended_witness :
    (wayesHandler [c1mwSend] c3handler c3ctx).response.code = 403 ∧
    (wayesHandler [c1mwSend] c3handler c3ctx).response.body = "middleware error\n" := by
  have h := dispatch_error_write_amended [] [] c1mwSend c3handler c3ctx c3ctx
    ((ctxSendError (ctxStatus c3ctx 403) (GoErr.mk "middleware error")).1)
    (GoErr.mk "middleware error") rfl rfl
  have hh : wayesHandler [c1mwSend] c3handler c3ctx =
      writeChainError ((ctxSendError (ctxStatus c3ctx 403) (GoErr.mk "middleware error")).1)
        (GoErr.mk "middleware error") := h.1
  rw [hh]
  constructor <;> rfl

/-- Dissection of a successful `Group` call: the group id is fresh, the
group's router carries the parent's validator, a copy of the parent's
middleware slice at creation time, and an empty mux; every other router
except the parent (whose mux gained the mount entry) is untouched. -/
theorem group_parts (w : World) (rid : Nat) (p : String) (w1 : World) (gid : Nat)
    (hrid : rid < w.routers.length)
    (hg : World.group w rid p = some (w1, gid)) :
    gid = w.routers.length ∧
    w1.routers.length = w.routers.length + 1 ∧
    w1.routerD gid =
      { validator := (w.routerD rid).validator,
        middlewares := (w.routerD rid).middlewares, mux := [] } ∧
    (∀ j, j ≠ rid → j < w.routers.length → w1.routerD j = w.routerD j) := by
  have hne : rid ≠ w.routers.length := Nat.ne_of_lt hrid
  simp only [World.group] at hg
  split at hg
  · exact absurd hg (by simp)
  next mux hmz =>
    injection hg with hpair
    injection hpair with hw1 hgid
    subst hw1
    subst hgid
    refine ⟨by simp [World.newRouter], ?_, ?_, ?_⟩
    · simp [World.setMux, World.use, World.newRouter]
    · show (World.setMux _ rid mux).routerD (World.newRouter w (w.routerD rid).validator).2 = _
      simp only [World.newRouter]
      unfold World.setMux World.routerD
      rw [listGetD_set_ne _ rid w.routers.length _ _ hne]
      unfold World.use World.routerD
      rw [listGetD_set_self _ w.routers.length _ _ (by simp)]
      rw [listGetD_append_length]
      simp
    · intro j hjr hjlt
      show (World.setMux _ rid mux).routerD j = _
      simp only [World.newRouter]
      unfold World.setMux World.routerD
      rw [listGetD_set_ne _ rid j _ _ (fun hh => hjr hh.symm)]
      unfold World.use World.routerD
      rw [listGetD_set_ne _ w.routers.length j _ _ (fun hh => Nat.ne_of_lt hjlt hh.symm)]
      rw [listGetD_append_lt _ _ _ _ hjlt]

/-- Claim C5: a Group's middleware list is a snapshot copied at
Group-creation time: the group's list equals the parent's list as of the
`Group` call, and a later `Use` on the parent leaves the group's router —
hence the dispatch computation run for the group's routes (the owner's
middleware list and validator, read at serve time) — unchanged. -/
theorem group_snapshot (w : World) (rid : Nat) (p : String) (w1 : World) (gid : Nat)
    (hs : List Handler) (hrid : rid < w.routers.length)
    (hg : World.group w rid p = some (w1, gid)) :
    gid ≠ rid ∧
    (w1.routerD gid).middlewares = (w.routerD rid).middlewares ∧
    (World.use w1 rid hs).routerD gid = w1.routerD gid ∧
    (∀ (h : Handler) (req : Request) (rec : Recorder),
      wayesHandler ((World.use w1 rid hs).routerD gid).middlewares h
          (NewCtx ((World.use w1 rid hs).routerD gid).validator rec req) =
        wayesHandler (w1.routerD gid).middlewares h
          (NewCtx (w1.routerD gid).validator rec req)) := by
  obtain ⟨hgid, _, hdata, _⟩ := group_parts w rid p w1 gid hrid hg
  have hne : gid ≠ rid := hgid ▸ (Nat.ne_of_lt hrid).symm
  have huse : (World.use w1 rid hs).routerD gid = w1.routerD gid := by
    unfold World.use World.routerD
    exact listGetD_set_ne _ rid gid _ _ (fun hh => hne hh.symm)
  exact ⟨hne, by rw [hdata], huse, fun h req rec => by rw [huse]⟩

/-- Witness for C5: a parent with one middleware, a group derived from it,
then `Use` of a second middleware on the parent: the group still holds
exactly the one middleware copied at creation. -/
theorem group_snapshot_witness :
    ((c5grouped.1.routerD 1).middlewares = [c5mwA]) ∧
    ((World.use c5grouped.1 0 [c5mwB]).routerD 1 = c5grouped.1.routerD 1) := by
  have h := group_snapshot c5base 0 "/users" c5grouped.1 1 [c5mwB] (by decide) rfl
  exact ⟨h.2.1, h.2.2.1⟩

/-- Claim C6: a Group created from a Router that already has two middleware
entries inherits both, in their original order, ahead of middleware
registered on the Group itself; a dispatch of a route owned by the group
runs them in exactly that order, all before the terminal handler, which
runs on the state the last middleware produced. -/
theorem group_inherited_order (w : World) (rid : Nat) (p : String) (w1 : World) (gid : Nat)
    (m1 m2 m3 h : Handler) (c c1 c2 c3 : CtxState)
    (hrid : rid < w.routers.length)
    (hmw : (w.routerD rid).middlewares = [m1, m2])
    (hg : World.group w rid p = some (w1, gid)) :
    ((World.use w1 gid [m3]).routerD gid).middlewares = [m1, m2, m3] ∧
    (m1 c = (c1, none) → m2 c1 = (c2, none) → m3 c2 = (c3, none) →
      wayesHandler ((World.use w1 gid [m3]).routerD gid).middlewares h c = finish h c3) := by
  obtain ⟨hgid, hlen, hdata, _⟩ := group_parts w rid p w1 gid hrid hg
  have hglt : gid < w1.routers.length := by rw [hlen, hgid]; exact Nat.lt_succ_self _
  have hmid : ((World.use w1 gid [m3]).routerD gid).middlewares = [m1, m2, m3] := by
    unfold World.use World.routerD
    rw [listGetD_set_self _ gid _ _ hglt]
    show (w1.routerD gid).middlewares ++ [m3] = [m1, m2, m3]
    rw [hdata]
    show (w.routerD rid).middlewares ++ [m3] = [m1, m2, m3]
    rw [hmw]
    rfl
  refine ⟨hmid, fun h1 h2 h3 => ?_⟩
  rw [hmid]
  unfold wayesHandler
  simp [runChain, h1, h2, h3]

/-- Witness for C6: a parent with two middleware, a group derived from it,
a third middleware registered on the group: the group's chain is the two
inherited entries, in order, then the group's own; the terminal handler
runs on the state produced by the third middleware. -/
theorem group_inherited_order_witness :
    ((World.use c6grouped.1 1 [c6mwC]).routerD 1).middlewares = [c5mwA, c5mwB, c6mwC] ∧
    wayesHandler ((World.use c6grouped.1 1 [c6mwC]).routerD 1).middlewares c3handler c3ctx =
      finish c3handler (ctxSet (ctxSet c3ctx "B" "1") "C" "1") := by
  have h := group_inherited_order c6base 0 "/g" c6grouped.1 1 c5mwA c5mwB c6mwC c3handler
    c3ctx c3ctx (ctxSet c3ctx "B" "1") (ctxSet (ctxSet c3ctx "B" "1") "C" "1")
    (by decide) rfl rfl
  exact ⟨h.1, h.2 rfl rfl rfl⟩

/-- Counterexample to claim C2 as stated: with two (or more) given tables,
the second `rt.Mux().Handle("/", router)` call registers the pattern `"/"`
a second time on the same mux, which `ServeMux.Handle` rejects with a panic
— so not every `Combine(t1, ..., tn)` call mounts each given table. -/
theorem combine_two_tables_counterexample :
    World.combine c2three 0 [1, 2] = none := rfl

/-- One step of `ServeMux.ServeHTTP` with fuel left. -/
theorem serve_succ (fuel : Nat) (w : World) (rid : Nat) (req : Request) (rec : Recorder) :
    World.serve (fuel + 1) w rid req rec =
      (match findBest (w.routerD rid).mux req.method req.path with
       | none => some (notFound rec)
       | some (_, MuxEntry.route owner h) =>
         some ((wayesHandler (w.routerD owner).middlewares h
           (NewCtx (w.routerD owner).validator rec req)).response)
       | some (_, MuxEntry.strip pre target) =>
         if pre ≠ "" ∧ pre.data.isPrefixOf req.path.data then
           World.serve fuel w target
             { req with path := ⟨req.path.data.drop pre.data.length⟩ } rec
         else some (notFound rec)
       | some (_, MuxEntry.mount target) => World.serve fuel w target req rec) := rfl

/-- Claim C2, amended: `Combine` mounts the given tables one by one under
the pattern `"/"` on the receiver's table and returns the receiver's mux,
but only the first such mount can ever succeed — a second table (in the
same call or a later one) panics, because the pattern `"/"` is already
taken.  For a successful single-table call: the receiver's table gains the
wildcard fallback entry, every other router is untouched, and a request
that matches none of the receiver's own patterns is delegated to the
combined table unmodified (same request, same response writer). -/
theorem combine_single_mount_amended (w : World) (rid t : Nat) (w2 : World) (ret : Nat)
    (hrid : rid < w.routers.length)
    (hc : World.combine w rid [t] = some (w2, ret)) :
    ret = rid ∧
    (w2.routerD rid).mux =
      (w.routerD rid).mux ++ [(Pat.subtree "", MuxEntry.mount t)] ∧
    (∀ j, j ≠ rid → w2.routerD j = w.routerD j) ∧
    (∀ (req : Request) (rec : Recorder) (fuel : Nat),
      [ '/' ].isPrefixOf req.path.data = true →
      (∀ pe ∈ (w.routerD rid).mux, pe.1.matchReq req.method req.path = false) →
      World.serve (fuel + 1) w2 rid req rec = World.serve fuel w2 t req rec) := by
  simp only [World.combine, combineAux] at hc
  split at hc
  · exact absurd hc (by simp)
  next wmid hmid =>
    simp only [Option.some.injEq] at hc
    injection hc with hw2 hret
    subst hw2
    subst hret
    split at hmid
    · exact absurd hmid (by simp)
    next mux hmz =>
    have hwmid : wmid = World.setMux w rid mux := (Option.some.inj hmid).symm
    subst hwmid
    have hmux0 : mux = (w.routerD rid).mux ++ [(Pat.subtree "", MuxEntry.mount t)] := by
      unfold muxHandle at hmz
      split at hmz
      · exact absurd hmz (by simp)
      · exact (Option.some.inj hmz).symm
    have hmux : ((World.setMux w rid mux).routerD rid).mux =
        (w.routerD rid).mux ++ [(Pat.subtree "", MuxEntry.mount t)] := by
      unfold World.setMux World.routerD
      rw [listGetD_set_self _ rid _ _ hrid]
      exact hmux0
    refine ⟨rfl, hmux, fun j hj => ?_, fun req rec fuel hpre hnm => ?_⟩
    · unfold World.setMux World.routerD
      exact listGetD_set_ne _ rid j _ _ (fun hh => hj hh.symm)
    · have hfb : findBest ((World.setMux w rid mux).routerD rid).mux req.method req.path =
          some (Pat.subtree "", MuxEntry.mount t) := by
        rw [hmux]
        unfold findBest
        rw [List.foldl_append,
          findBest_all_no_match ((w.routerD rid).mux) req.method req.path hnm]
        simp [Pat.matchReq, hpre]
      rw [serve_succ, hfb]

/-- Witness for the amended C2: a receiver combined with a router that owns
`GET /users`; the request for `/users` is delegated to the combined table
unmodified and is answered by that table's registered handler. -/
theorem combine_single_mount_amended_witness :
    World.serve 2 c2comb 0 c2req Recorder.new = World.serve 1 c2comb 1 c2req Recorder.new ∧
    (World.serve 1 c2comb 1 c2req Recorder.new).map Recorder.body =
      some "response users version 2" := by
  constructor
  · exact (combine_single_mount_amended c2reg 0 1 c2comb 0 (by decide) rfl).2.2.2
      c2req Recorder.new 1 (by decide)
      (by intro pe hpe; rw [show (c2reg.routerD 0).mux = [] from rfl] at hpe; cases hpe)
  · rfl
